import Mathlib

/-!
Verification development for the vt-sniper course-availability monitor.

The Go sources are shallowly embedded: network transport, HTML parsing and
the process environment are abstracted as oracle parameters (an `Env`
structure of functions), while the program's own control flow — payload
construction, status checking, table scanning, the resolution phase and the
monitor loop of `Run` — is translated function by function.  Side effects
that the claims talk about (checks issued, seats found, notifications sent,
warnings printed) are recorded in an explicit event trace.
-/

namespace VtSniper

/-- Character-list analogue of Go `bytes` prefix test: `listLeads p s` is
true when `p` occurs at the very start of `s`. -/
def listLeads : List Char → List Char → Bool
  | [], _ => true
  | _ :: _, [] => false
  | p :: ps, c :: cs => p = c && listLeads ps cs

/-- Predicate `listHas pat s` is true when `pat` occurs contiguously somewhere in `s`. -/
def listHas : List Char → List Char → Bool
  | pat, [] => listLeads pat []
  | pat, c :: cs => listLeads pat (c :: cs) || listHas pat cs

/-- Embedding of Go `strings.TrimSpace`: drop whitespace from both ends
(structurally, over the character list, so that it evaluates in the
kernel; `Char.isWhitespace` covers the whitespace the scraped titles
contain). -/
def strTrim (s : String) : String :=
  ⟨((s.toList.dropWhile Char.isWhitespace).reverse.dropWhile
      Char.isWhitespace).reverse⟩

/-- Embedding of Go `strings.Contains s sub`: substring containment. -/
def strContains (s sub : String) : Bool :=
  listHas sub.toList s.toList

/-! ## Configuration and data model (Config, CourseStatus, loadConfig) -/

/-- The `DefaultTimetableURL` constant from the source. -/
def DefaultTimetableURL : String :=
  "https://selfservice.banner.vt.edu/ssb/HZSKVTSC.P_ProcRequest"

/-- Runtime configuration (`Config` struct). -/
structure Config where
  crns : List String
  email : String
  checkInterval : Nat
  term : String
  campus : String
  baseURL : String
  deriving DecidableEq

/-- Per-course tracking record (`CourseStatus` struct). -/
structure CourseStatus where
  crn : String
  name : String
  found : Bool
  deriving DecidableEq

/-- Fatal errors `Run` can return before the polling loop starts. -/
inductive RunError where
  | configLoadFailed
  | noValidTargets
  deriving DecidableEq

/-- The default-filling block of `loadConfig`. -/
def applyDefaults (cfg : Config) : Config :=
  { cfg with
    checkInterval := if cfg.checkInterval = 0 then 30 else cfg.checkInterval
    campus := if cfg.campus = "" then "0" else cfg.campus
    term := if cfg.term = "" then "202601" else cfg.term
    baseURL := if cfg.baseURL = "" then DefaultTimetableURL else cfg.baseURL }

/-- Embedding of `loadConfig`: file reading and JSON decoding are abstracted as the
`raw : Except Unit Config` oracle; the defaulting and the empty-CRN check
are the source's. -/
def loadConfig (raw : Except Unit Config) : Except RunError Config :=
  match raw with
  | .error _ => .error .configLoadFailed
  | .ok cfg =>
    let cfg := applyDefaults cfg
    if cfg.crns = [] then .error .configLoadFailed else .ok cfg

/-! ## HTTP and scraping (buildPayload, fetchDocument, checkSectionOpen,
getCourseName).  An HTML document is abstracted to the part the program
consumes: the elements matching `.dataentrytable`, each a list of rows,
each row a list of `td`-cell texts in order. -/

/-- One table row: the texts of its `td` cells, in order. -/
structure TableRow where
  cells : List String
  deriving DecidableEq

/-- One element matching the `.dataentrytable` selector. -/
structure DocTable where
  rows : List TableRow
  deriving DecidableEq

/-- A parsed HTML document, restricted to its `.dataentrytable` elements. -/
structure Doc where
  tables : List DocTable
  deriving DecidableEq

/-- An HTTP response: its status code and, abstracting goquery's reader,
the parse outcome of its body (`none` = the body fails to parse). -/
structure HttpResponse where
  status : Nat
  doc : Option Doc
  deriving DecidableEq

/-- Errors of `fetchDocument`; `unexpectedStatus` carries the status code
(Go: `fmt.Errorf("unexpected status: %d %s", ...)`). -/
inductive FetchError where
  | requestFailed
  | unexpectedStatus (status : Nat)
  | parseFailed
  deriving DecidableEq

/-- Transport oracle: the outcome of `http.PostForm` for a given form
payload (`.error` = network-level failure). -/
def Post : Type := List (String × String) → Except Unit HttpResponse

/-- Embedding of `buildPayload`: the form data for a timetable search request, with the
`open_only=on` field present exactly when `openOnly` is true. -/
def buildPayload (c : Config) (crn : String) (openOnly : Bool) :
    List (String × String) :=
  [("CAMPUS", c.campus), ("TERMYEAR", c.term), ("CORE_CODE", "AR%"),
   ("subj_code", "%"), ("SCHDTYPE", "%"), ("CRSE_NUMBER", ""),
   ("crn", crn), ("sess_code", "%"),
   ("BTN_PRESSED", "FIND class sections"), ("inst_name", ""),
   ("disp_comments_in", "")] ++
  (if openOnly then [("open_only", "on")] else [])

/-- Embedding of `fetchDocument`: POST the payload, fail on transport error, fail on any
status other than 200, otherwise parse the body. -/
def fetchDocument (post : Post) (payload : List (String × String)) :
    Except FetchError Doc :=
  match post payload with
  | .error _ => .error .requestFailed
  | .ok resp =>
    if resp.status ≠ 200 then .error (.unexpectedStatus resp.status)
    else
      match resp.doc with
      | some d => .ok d
      | none => .error .parseFailed

/-- Embedding of `doc.Find(".dataentrytable").Text()`: the concatenated text of every
matched table (cell texts concatenated with no separator, as goquery
concatenates text nodes). -/
def tableText (doc : Doc) : String :=
  String.join (doc.tables.map fun t =>
    String.join (t.rows.map fun r => String.join r.cells))

/-- Embedding of `doc.Find(".dataentrytable tr")`: all rows of all matched tables in
document order. -/
def docRows (doc : Doc) : List TableRow :=
  doc.tables.flatMap (·.rows)

/-- Embedding of `row.Find("td:nth-child(n)").Text()` for 0-based index `i`: the cell's
text, or `""` when the row has no such cell (an empty selection's text). -/
def cellText (r : TableRow) (i : Nat) : String :=
  r.cells.getD i ""

/-- Embedding of `checkSectionOpen`, returning the Go pair `(bool, error)`: `false` plus
the fetch error on failure, otherwise the substring test of the CRN
against the concatenated `.dataentrytable` text, with no error. -/
def checkSectionOpen (post : Post) (c : Config) (crn : String) :
    Bool × Option FetchError :=
  match fetchDocument post (buildPayload c crn true) with
  | .error e => (false, some e)
  | .ok doc => (strContains (tableText doc) crn, none)

/-- Errors of `getCourseName`: a propagated fetch error, or the
"course not found for CRN" error. -/
inductive NameError where
  | fetch (e : FetchError)
  | notFound (crn : String)
  deriving DecidableEq

/-- The `doc.Find(".dataentrytable tr").Each(...)` fold of `getCourseName`:
`courseName` starts empty and is overwritten by the trimmed third-column
text of every row whose first-column text contains the CRN. -/
def scanRows (rows : List TableRow) (crn : String) : String :=
  rows.foldl
    (fun acc r =>
      if strContains (cellText r 0) crn then (strTrim (cellText r 2)) else acc)
    ""

/-- Embedding of `getCourseName`: fetch the all-sections document, run the row scan, and
fail with `notFound` exactly when the scanned name is empty. -/
def getCourseName (post : Post) (c : Config) (crn : String) :
    Except NameError String :=
  match fetchDocument post (buildPayload c crn false) with
  | .error e => .error (.fetch e)
  | .ok doc =>
    let courseName := scanRows (docRows doc) crn
    if courseName = "" then .error (.notFound crn) else .ok courseName

/-! ## Notification and the monitor loop (`Run`).

`Run` receives an `EmailSender` in `RunOptions` and builds a default from
the `RESEND_API_KEY` environment variable when none is supplied — but the
loop body calls the package-level `sendEmail`, which reads
`RESEND_API_KEY` from the process environment at call time.  The trace
records, for every notification, which of the two paths delivered it. -/

/-- Errors of the notification path. -/
inductive EmailError where
  | unconfigured
  | deliveryFailed
  deriving DecidableEq

/-- Which call target delivered a notification: the package-level
`sendEmail` (which reads `RESEND_API_KEY` from the process environment
inside the call) or the injected `RunOptions.EmailSender`. -/
inductive NotifyVia where
  | envSendEmail
  | injectedSender
  deriving DecidableEq

/-- The oracle environment: everything outside the program — transport for
resolution and for each attempt's checks, the process environment's
`RESEND_API_KEY` value, the email provider, and the parsed config file. -/
structure Env where
  rawConfig : Except Unit Config
  resolvePost : Post
  checkPost : Nat → Post
  resendApiKey : String
  providerSend : String → String → String → Option EmailError

/-- Package-level `sendEmail`: reads `RESEND_API_KEY` from the process
environment, fails when it is unset, otherwise calls the provider. -/
def sendEmail (env : Env) (toAddr subject body : String) : Option EmailError :=
  if env.resendApiKey = "" then some .unconfigured
  else env.providerSend toAddr subject body

/-- Observable events of a run, in chronological order. -/
inductive Event where
  /-- `log.Printf("Warning: couldn't get name for CRN %s ...")`. -/
  | resolveWarning (crn : String)
  /-- `fmt.Printf("Monitoring: %s (CRN: %s)")`. -/
  | monitoring (crn name : String)
  /-- an availability-check HTTP call placed for `crn` on this attempt. -/
  | checkIssued (attempt : Nat) (crn : String)
  /-- `fmt.Printf("✗ [...] Error checking %s ...")`. -/
  | checkErrorLogged (attempt : Nat) (crn : String)
  /-- the `open` branch taken: `courses[i].Found = true; remaining--`. -/
  | seatFound (crn name : String)
  /-- a notification call: which path, triggering course, recipient,
  subject, body, and the call's result (discarded by the caller). -/
  | notified (via : NotifyVia) (crn name toAddr subject body : String)
      (result : Option EmailError)
  /-- a log line reporting a failed notification; no statement in the
  source emits this (the `sendEmail` return value is discarded), so no
  run's trace contains it. -/
  | notifyFailureLogged (crn : String)
  deriving DecidableEq

/-- The email body `msg` built in the loop. -/
def emailMsg (name crn : String) : String :=
  "OPEN SEAT: " ++ name ++ " (CRN: " ++ crn ++ ")"

/-- The fixed notification subject. -/
def emailSubject : String := "VT Course Section Open!"

/-- Result of the loop body for one course on one attempt. -/
structure StepResult where
  course : CourseStatus
  flipped : Bool
  events : List Event
  deriving DecidableEq

/-- One iteration of the inner `for i := range courses` loop: skip found
courses; otherwise check, and on `open` flip the flag, decrement (reported
as `flipped`) and send the notification via the package-level `sendEmail`.
A check error is logged and the course left unchanged. -/
def processCourse (env : Env) (cfg : Config) (attempt : Nat)
    (c : CourseStatus) : StepResult :=
  if c.found then ⟨c, false, []⟩
  else
    match checkSectionOpen (env.checkPost attempt) cfg c.crn with
    | (_, some _) =>
      ⟨c, false, [.checkIssued attempt c.crn, .checkErrorLogged attempt c.crn]⟩
    | (isOp, none) =>
      if isOp then
        ⟨{ c with found := true }, true,
         [.checkIssued attempt c.crn, .seatFound c.crn c.name,
          .notified .envSendEmail c.crn c.name cfg.email emailSubject
            (emailMsg c.name c.crn)
            (sendEmail env cfg.email emailSubject (emailMsg c.name c.crn))]⟩
      else ⟨c, false, [.checkIssued attempt c.crn]⟩

/-- One full pass over the course slice (one cycle), threading `remaining`
exactly as the source decrements it. -/
def runCycle (env : Env) (cfg : Config) (attempt : Nat) :
    List CourseStatus → Nat → List CourseStatus × Nat × List Event
  | [], remaining => ([], remaining, [])
  | c :: rest, remaining =>
    let r := processCourse env cfg attempt c
    let rest' := runCycle env cfg attempt rest
      (if r.flipped then remaining - 1 else remaining)
    (r.course :: rest'.1, rest'.2.1, r.events ++ rest'.2.2)

/-- How the polling loop ended: `success` is the `return nil` under
`remaining == 0`; `outOfFuel` truncates the otherwise unbounded loop. -/
inductive RunStatus where
  | success
  | outOfFuel
  deriving DecidableEq

/-- The polling loop's final state and trace. -/
structure LoopResult where
  status : RunStatus
  courses : List CourseStatus
  remaining : Nat
  events : List Event
  deriving DecidableEq

/-- The outer `for attempt := 1; ; attempt++` loop: run a cycle, return
successfully when `remaining` reaches 0, otherwise wait and start the next
attempt.  `fuel` bounds how many cycles the embedding unrolls. -/
def runLoop (env : Env) (cfg : Config) :
    Nat → Nat → List CourseStatus → Nat → LoopResult
  | 0, _, courses, remaining => ⟨.outOfFuel, courses, remaining, []⟩
  | fuel + 1, attempt, courses, remaining =>
    let cyc := runCycle env cfg attempt courses remaining
    if cyc.2.1 = 0 then ⟨.success, cyc.1, cyc.2.1, cyc.2.2⟩
    else
      let r := runLoop env cfg fuel (attempt + 1) cyc.1 cyc.2.1
      ⟨r.status, r.courses, r.remaining, cyc.2.2 ++ r.events⟩

/-- The resolution phase: for each configured CRN call `getCourseName`;
on success append a `CourseStatus` with `found = false`, on failure log a
warning and drop the CRN. -/
def resolveCourses (env : Env) (cfg : Config) :
    List String → List CourseStatus × List Event
  | [] => ([], [])
  | crn :: rest =>
    let rest' := resolveCourses env cfg rest
    match getCourseName env.resolvePost cfg crn with
    | .error _ => (rest'.1, .resolveWarning crn :: rest'.2)
    | .ok name =>
      (⟨crn, name, false⟩ :: rest'.1, .monitoring crn name :: rest'.2)

/-- Embedding of `RunOptions`: whether a custom `EmailSender` was supplied
(`EmailSender ≠ nil`).  `Run` builds the default sender when it is not —
but, as the loop body shows, neither sender is ever consulted: line-for-
line, the notification call is the package-level `sendEmail`. -/
structure RunOptions where
  emailSenderSupplied : Bool
  deriving DecidableEq

/-- Embedding of `Run`: load the config, resolve every configured CRN, fail with
`noValidTargets` when nothing survived, otherwise enter the polling loop
with `remaining = len(courses)`.  Returns the outcome and the full trace.
`opts` is accepted exactly as in the source; the loop body does not use
the sender it selects. -/
def Run (env : Env) (opts : RunOptions) (fuel : Nat) :
    Except RunError LoopResult × List Event :=
  match loadConfig env.rawConfig with
  | .error e => (.error e, [])
  | .ok cfg =>
    let rr := resolveCourses env cfg cfg.crns
    if rr.1.isEmpty then (.error .noValidTargets, rr.2)
    else
      let r := runLoop env cfg fuel 1 rr.1 rr.1.length
      (.ok r, rr.2 ++ r.events)

/-! ## Derived notions and helper predicates used by the theorems -/

instance {ε α : Type} [DecidableEq ε] [DecidableEq α] :
    DecidableEq (Except ε α) := fun x y =>
  match x, y with
  | .ok a, .ok b =>
    if h : a = b then .isTrue (by rw [h])
    else .isFalse (by intro hc; cases hc; exact h rfl)
  | .ok _, .error _ => .isFalse (by intro hc; cases hc)
  | .error _, .ok _ => .isFalse (by intro hc; cases hc)
  | .error a, .error b =>
    if h : a = b then .isTrue (by rw [h])
    else .isFalse (by intro hc; cases hc; exact h rfl)

/-- The number of tracked courses not yet found. -/
def countUnfound (courses : List CourseStatus) : Nat :=
  (courses.filter (fun c => !c.found)).length

/-- The last element of a list satisfying `p`, if any. -/
def lastMatch {α : Type} (p : α → Bool) : List α → Option α
  | [] => none
  | x :: xs =>
    match lastMatch p xs with
    | some y => some y
    | none => if p x then some x else none

/-- Modelled from the spec (the resolution semantics claim C2 states, kept
separate for comparison with `getCourseName`): the trimmed third-column
text of the FIRST row whose first-column text contains the identifier;
`notFound` when no row matches or that title is empty. -/
def specResolveTitle (doc : Doc) (crn : String) : Except NameError String :=
  match (docRows doc).find? (fun r => strContains (cellText r 0) crn) with
  | none => .error (.notFound crn)
  | some r =>
    if (strTrim (cellText r 2)) = "" then .error (.notFound crn)
    else .ok ((strTrim (cellText r 2)))

/-- Success statuses in the HTTP sense, following the spec's words
"non-success response status": the conventional 2xx range. -/
def isSuccessStatus (s : Nat) : Bool := 200 ≤ s && s < 300

/-- Is this event a notification delivered through the given path? -/
def isNotifiedVia (v : NotifyVia) : Event → Bool
  | .notified via _ _ _ _ _ _ => via = v
  | _ => false

/-- Is this event a notification triggered by the given CRN? -/
def isNotifyFor (crn : String) : Event → Bool
  | .notified _ c _ _ _ _ _ => c = crn
  | _ => false

/-- Is this event a notification call that returned an error? -/
def isFailedNotify : Event → Bool
  | .notified _ _ _ _ _ _ (some _) => true
  | _ => false

/-- Is this event a log line reporting a failed notification? -/
def isNotifyFailLog : Event → Bool
  | .notifyFailureLogged _ => true
  | _ => false

/-- Is this event an availability check issued for the given CRN? -/
def isCheckFor (crn : String) : Event → Bool
  | .checkIssued _ c => c = crn
  | _ => false

/-- Is this event a found-flag flip (seat detection) for the given CRN? -/
def isFlipFor (crn : String) : Event → Bool
  | .seatFound c _ => c = crn
  | _ => false

/-- True when, somewhere in the trace, a check for `crn` is issued strictly
after a found-flag flip for `crn`. -/
def checkAfterFlip (crn : String) : List Event → Bool
  | [] => false
  | e :: rest =>
    (isFlipFor crn e && rest.any (isCheckFor crn)) || checkAfterFlip crn rest

/-! ## Concrete documents and environments for witnesses and
counterexamples -/

/-- A document holding a single `.dataentrytable` with the given rows. -/
def mkDoc (rows : List (List String)) : Doc :=
  ⟨[⟨rows.map TableRow.mk⟩]⟩

/-- A transport that always answers 200 with the given document. -/
def okPost (d : Doc) : Post := fun _ => .ok ⟨200, some d⟩

/-- A transport that always fails at the network level. -/
def errPost : Post := fun _ => .error ()

/-- An environment whose transport always succeeds: one document for
resolution queries, one for availability queries, plus the process
environment's API-key value. -/
def mkEnv (crns : List String) (resolveDoc checkDoc : Doc) (apiKey : String) :
    Env :=
  { rawConfig := .ok ⟨crns, "user@example.edu", 30, "202601", "0", "http://x"⟩
    resolvePost := okPost resolveDoc
    checkPost := fun _ => okPost checkDoc
    resendApiKey := apiKey
    providerSend := fun _ _ _ => none }

def c1Env : Env := mkEnv ["12345"] (mkDoc [["12345", "s", " Intro "]]) (mkDoc [["12345"]]) "key"

def c2Cfg : Config := ⟨["123"], "", 30, "202601", "0", "u"⟩

def c2Doc : Doc := mkDoc [["x 123 x", "b", "Alpha"], ["123", "b", "Beta"]]

def c3Doc : Doc := mkDoc [["a135b"]]

def c3Cfg : Config := ⟨["135"], "", 30, "202601", "0", "u"⟩

def c5Env : Env := mkEnv ["222"] (mkDoc [["222", "s", "N"]]) (mkDoc [["222"]]) ""

def c6Env : Env := mkEnv ["333"] (mkDoc [["333", "s", "M"]]) (mkDoc [["333"]]) "key"

def c7Env : Env := mkEnv ["111", "111"] (mkDoc [["111", "s", "N"]]) (mkDoc [["111"]]) "key"

def c8Env : Env := mkEnv ["1", "2"] (mkDoc [["1", "s", "A"]]) (mkDoc [["1"]]) "key"

def c10Env : Env := mkEnv ["9", "9"] (mkDoc [["9", "s", "Z"]]) (mkDoc [["9"]]) "key"

/-! ## Theorems -/

theorem listLeads_iff (p s : List Char) :
    listLeads p s = true ↔ ∃ t, s = p ++ t := by
  induction p generalizing s with
  | nil => simp [listLeads]
  | cons a ps ih =>
    cases s with
    | nil => simp [listLeads]
    | cons c cs =>
      simp only [listLeads, Bool.and_eq_true, decide_eq_true_eq, ih,
        List.cons_append, List.cons.injEq]
      constructor
      · rintro ⟨rfl, t, rfl⟩
        exact ⟨t, rfl, rfl⟩
      · rintro ⟨t, rfl, rfl⟩
        exact ⟨rfl, t, rfl⟩

theorem listHas_iff (pat s : List Char) :
    listHas pat s = true ↔ ∃ l t, s = l ++ pat ++ t := by
  induction s with
  | nil =>
    simp only [listHas, listLeads_iff]
    constructor
    · rintro ⟨t, h⟩
      exact ⟨[], t, by simpa using h⟩
    · rintro ⟨l, t, h⟩
      rcases List.append_eq_nil.mp (List.append_eq_nil.mp h.symm).1 with ⟨hl, hp⟩
      exact ⟨t, by simp [hp, ← (List.append_eq_nil.mp h.symm).2]⟩
  | cons c cs ih =>
    simp only [listHas, Bool.or_eq_true, listLeads_iff, ih]
    constructor
    · rintro (⟨t, h⟩ | ⟨l, t, h⟩)
      · exact ⟨[], t, by simpa using h⟩
      · exact ⟨c :: l, t, by simp [h]⟩
    · rintro ⟨l, t, h⟩
      cases l with
      | nil => exact Or.inl ⟨t, by simpa using h⟩
      | cons x xs =>
        right
        simp only [List.cons_append, List.cons.injEq] at h
        exact ⟨xs, t, h.2⟩

/-- Function `strContains` agrees with the mathematical notion of substring. -/
theorem strContains_iff (s sub : String) :
    strContains s sub = true ↔ ∃ l t, s.toList = l ++ sub.toList ++ t := by
  exact listHas_iff sub.toList s.toList

/-! ### Shared lemmas about the scraping layer -/

theorem foldl_last (p : TableRow → Bool) (t : TableRow → String) :
    ∀ (rows : List TableRow) (acc : String),
      rows.foldl (fun a r => if p r then t r else a) acc =
        match lastMatch p rows with
        | none => acc
        | some r => t r := by
  intro rows
  induction rows with
  | nil => intro acc; rfl
  | cons x xs ih =>
    intro acc
    simp only [List.foldl_cons, lastMatch]
    rw [ih]
    rcases h : lastMatch p xs with _ | y
    · by_cases hp : p x <;> simp [hp]
    · simp

theorem scanRows_eq (rows : List TableRow) (crn : String) :
    scanRows rows crn =
      match lastMatch (fun r => strContains (cellText r 0) crn) rows with
      | none => ""
      | some r => strTrim (cellText r 2) :=
  foldl_last _ _ rows ""

/-! ### Claim C4 (corrected): the status gate of `fetchDocument` -/

/-- C4, counterexample to the claim as stated: 201 is a success status in
the HTTP sense, yet `fetchDocument` fails for status reasons on a 201
response whose body would parse — the code accepts exactly status 200,
not "any success status". -/
theorem c4_counterexample :
    isSuccessStatus 201 = true ∧
    fetchDocument (fun _ => .ok ⟨201, some ⟨[]⟩⟩) [] =
      .error (.unexpectedStatus 201) := by decide

/-- C4, amended: for every delivered response, `fetchDocument` fails for
status reasons exactly when the status is not 200, the error carries that
status, and a 200 response proceeds to body parsing (parse failure or the
parsed document). -/
theorem c4_status_gate (post : Post) (payload : List (String × String))
    (resp : HttpResponse) (h : post payload = .ok resp) :
    ((∃ s, fetchDocument post payload = .error (.unexpectedStatus s)) ↔
      resp.status ≠ 200) ∧
    (resp.status ≠ 200 →
      fetchDocument post payload = .error (.unexpectedStatus resp.status)) ∧
    (resp.status = 200 → resp.doc = none →
      fetchDocument post payload = .error .parseFailed) ∧
    (∀ d, resp.status = 200 → resp.doc = some d →
      fetchDocument post payload = .ok d) := by
  unfold fetchDocument
  rw [h]
  by_cases h200 : resp.status = 200
  · rcases hdoc : resp.doc with _ | d <;> simp [h200, hdoc]
  · simp [h200]

/-- C4 witness: a 404 response is rejected with its status; a 200 response
with a parseable body yields the document. -/
theorem c4_witness :
    fetchDocument (fun _ => .ok ⟨404, some ⟨[]⟩⟩) [] =
      .error (.unexpectedStatus 404) ∧
    fetchDocument (fun _ => .ok ⟨200, some ⟨[]⟩⟩) [] = .ok ⟨[]⟩ := by
  refine ⟨(c4_status_gate _ [] ⟨404, some ⟨[]⟩⟩ rfl).2.1 (by decide), ?_⟩
  exact (c4_status_gate _ [] ⟨200, some ⟨[]⟩⟩ rfl).2.2.2 ⟨[]⟩ rfl rfl

/-! ### Claim C9 (confirmed): `checkSectionOpen` never pairs `true` with an
error -/

/-- C9: whenever `checkSectionOpen` returns a non-nil error, its boolean
component is `false`; the pair `(true, error)` is unreachable. -/
theorem c9_error_implies_false (post : Post) (cfg : Config) (crn : String)
    (h : ((checkSectionOpen post cfg crn).2).isSome = true) :
    (checkSectionOpen post cfg crn).1 = false := by
  unfold checkSectionOpen at *
  rcases hf : fetchDocument post (buildPayload cfg crn true) with e | doc
  · simp [hf]
  · rw [hf] at h
    simp at h

/-- C9 witness: on a network-level failure the boolean is `false`. -/
theorem c9_witness :
    (checkSectionOpen errPost ⟨["135"], "", 30, "202601", "0", "u"⟩ "135").1
      = false :=
  c9_error_implies_false errPost ⟨["135"], "", 30, "202601", "0", "u"⟩ "135"
    (by decide)

/-! ### Claim C3 (confirmed): substring availability semantics and error
propagation -/

/-- C3: when the lookup succeeds with document `doc`, `checkSectionOpen`
reports open exactly when the identifier occurs as a substring of the
concatenated `.dataentrytable` text, with no error; when the lookup fails,
the lookup error is returned unchanged (alongside `false`, never as a
silent "not open"). -/
theorem c3_availability_semantics (post : Post) (cfg : Config)
    (crn : String) :
    (∀ doc, fetchDocument post (buildPayload cfg crn true) = .ok doc →
      ((checkSectionOpen post cfg crn).1 = true ↔
        ∃ l t, (tableText doc).toList = l ++ crn.toList ++ t) ∧
      (checkSectionOpen post cfg crn).2 = none) ∧
    (∀ e, fetchDocument post (buildPayload cfg crn true) = .error e →
      checkSectionOpen post cfg crn = (false, some e)) := by
  constructor
  · intro doc hf
    unfold checkSectionOpen
    rw [hf]
    exact ⟨strContains_iff _ _, rfl⟩
  · intro e hf
    unfold checkSectionOpen
    rw [hf]

/-- C3 witness: a table whose text is `"a135b"` makes CRN `135` open, and
a transport failure is propagated unchanged. -/
theorem c3_witness :
    (checkSectionOpen (okPost c3Doc) c3Cfg "135").1 = true ∧
    (checkSectionOpen (okPost c3Doc) c3Cfg "135").2 = none ∧
    checkSectionOpen errPost c3Cfg "135" = (false, some .requestFailed) := by
  have h := c3_availability_semantics (okPost c3Doc) c3Cfg "135"
  have h1 := h.1 c3Doc (by decide)
  exact ⟨h1.1.mpr ⟨"a".toList, "b".toList, by decide⟩, h1.2,
    (c3_availability_semantics errPost c3Cfg "135").2 .requestFailed
      (by decide)⟩

/-! ### Claim C2 (corrected): `getCourseName` keeps the LAST matching row -/

/-- C2, counterexample to the claim as stated: with two matching rows
titled `Alpha` (first) and `Beta` (second), `getCourseName` returns
`Beta`, not the first-match title `Alpha` that the claim specifies
(`specResolveTitle` is the claim's stated semantics). -/
theorem c2_counterexample :
    getCourseName (okPost c2Doc) c2Cfg "123" = .ok "Beta" ∧
    specResolveTitle c2Doc "123" = .ok "Alpha" ∧
    getCourseName (okPost c2Doc) c2Cfg "123" ≠ specResolveTitle c2Doc "123"
    := by decide

/-- C2, amended: `getCourseName` returns the whitespace-trimmed third
column of the LAST row whose first column contains the identifier, and
returns the not-found error exactly when no row matches or that last
extracted title is empty; fetch errors are propagated. -/
theorem c2_last_match (post : Post) (cfg : Config) (crn : String) :
    (∀ doc, fetchDocument post (buildPayload cfg crn false) = .ok doc →
      getCourseName post cfg crn =
        match lastMatch (fun r => strContains (cellText r 0) crn)
            (docRows doc) with
        | none => .error (.notFound crn)
        | some r =>
          if strTrim (cellText r 2) = "" then .error (.notFound crn)
          else .ok (strTrim (cellText r 2))) ∧
    (∀ e, fetchDocument post (buildPayload cfg crn false) = .error e →
      getCourseName post cfg crn = .error (.fetch e)) := by
  constructor
  · intro doc hf
    unfold getCourseName
    rw [hf]
    simp only [scanRows_eq]
    rcases h : lastMatch (fun r => strContains (cellText r 0) crn)
        (docRows doc) with _ | r
    · simp [h]
    · simp [h]
  · intro e hf
    unfold getCourseName
    rw [hf]

/-- C2 witness: the last-match characterization evaluated on the two-row
document, and fetch-error propagation on a failing transport. -/
theorem c2_witness :
    getCourseName (okPost c2Doc) c2Cfg "123" =
      (match lastMatch (fun r => strContains (cellText r 0) "123")
          (docRows c2Doc) with
       | none => .error (.notFound "123")
       | some r =>
         if strTrim (cellText r 2) = "" then .error (.notFound "123")
         else .ok (strTrim (cellText r 2))) ∧
    getCourseName errPost c2Cfg "123" = .error (.fetch .requestFailed) :=
  ⟨(c2_last_match (okPost c2Doc) c2Cfg "123").1 c2Doc (by decide),
   (c2_last_match errPost c2Cfg "123").2 .requestFailed (by decide)⟩

/-! ### Shared lemmas about the monitor loop -/

theorem processCourse_of_found (env : Env) (cfg : Config) (attempt : Nat)
    (c : CourseStatus) (h : c.found = true) :
    processCourse env cfg attempt c = ⟨c, false, []⟩ := by
  unfold processCourse
  simp [h]

theorem processCourse_master (env : Env) (cfg : Config) (attempt : Nat)
    (c : CourseStatus) :
    (processCourse env cfg attempt c).course.crn = c.crn ∧
    (processCourse env cfg attempt c).course.name = c.name ∧
    ((processCourse env cfg attempt c).flipped = true →
      c.found = false ∧ (processCourse env cfg attempt c).course.found = true) ∧
    ((processCourse env cfg attempt c).flipped = false →
      (processCourse env cfg attempt c).course = c) ∧
    ((processCourse env cfg attempt c).flipped = true →
      (processCourse env cfg attempt c).events =
        [.checkIssued attempt c.crn, .seatFound c.crn c.name,
         .notified .envSendEmail c.crn c.name cfg.email emailSubject
           (emailMsg c.name c.crn)
           (sendEmail env cfg.email emailSubject (emailMsg c.name c.crn))]) := by
  by_cases h : c.found = true
  · simp [processCourse_of_found env cfg attempt c h, h]
  · have h' : c.found = false := by simpa using h
    unfold processCourse
    rcases hc : checkSectionOpen (env.checkPost attempt) cfg c.crn with ⟨b, e⟩
    rcases e with _ | e
    · cases b <;> simp [h', hc]
    · simp [h', hc]

theorem runCycle_courses (env : Env) (cfg : Config) (attempt : Nat) :
    ∀ (courses : List CourseStatus) (remaining : Nat),
      (runCycle env cfg attempt courses remaining).1 =
        courses.map (fun c => (processCourse env cfg attempt c).course) := by
  intro courses
  induction courses with
  | nil => intro r; rfl
  | cons c rest ih =>
    intro r
    simp only [runCycle, List.map_cons]
    rw [ih]

theorem runCycle_events (env : Env) (cfg : Config) (attempt : Nat) :
    ∀ (courses : List CourseStatus) (remaining : Nat),
      (runCycle env cfg attempt courses remaining).2.2 =
        courses.flatMap (fun c => (processCourse env cfg attempt c).events)
    := by
  intro courses
  induction courses with
  | nil => intro r; rfl
  | cons c rest ih =>
    intro r
    simp only [runCycle, List.flatMap_cons]
    rw [ih]

theorem runCycle_remaining (env : Env) (cfg : Config) (attempt : Nat) :
    ∀ (courses : List CourseStatus) (remaining : Nat),
      (runCycle env cfg attempt courses remaining).2.1 =
        remaining - (courses.filter
          (fun c => (processCourse env cfg attempt c).flipped)).length := by
  intro courses
  induction courses with
  | nil => intro r; rfl
  | cons c rest ih =>
    intro r
    simp only [runCycle]
    by_cases hf : (processCourse env cfg attempt c).flipped = true
    · rw [ih]
      simp [List.filter_cons, hf]
      omega
    · have hf' : (processCourse env cfg attempt c).flipped = false := by
        simpa using hf
    
      rw [ih]
      simp [List.filter_cons, hf']

theorem countUnfound_step (env : Env) (cfg : Config) (attempt : Nat) :
    ∀ courses : List CourseStatus,
      countUnfound (courses.map
          (fun c => (processCourse env cfg attempt c).course)) +
        (courses.filter
          (fun c => (processCourse env cfg attempt c).flipped)).length =
      countUnfound courses := by
  intro courses
  induction courses with
  | nil => rfl
  | cons c rest ih =>
    have hm := processCourse_master env cfg attempt c
    by_cases hf : (processCourse env cfg attempt c).flipped = true
    · have hcf : c.found = false := (hm.2.2.1 hf).1
      have hpf : (processCourse env cfg attempt c).course.found = true :=
        (hm.2.2.1 hf).2
      simp [countUnfound, List.filter_cons, hf, hcf, hpf] at *
      omega
    · have hf' : (processCourse env cfg attempt c).flipped = false := by
        simpa using hf
      have hcc : (processCourse env cfg attempt c).course = c :=
        hm.2.2.2.1 hf'
      by_cases hcf : c.found = true
      · simp [countUnfound, List.filter_cons, hf', hcc, hcf] at *
        omega
      · have hcf' : c.found = false := by simpa using hcf
        simp [countUnfound, List.filter_cons, hf', hcc, hcf'] at *
        omega

theorem resolveCourses_courses (env : Env) (cfg : Config) :
    ∀ crns : List String,
      (resolveCourses env cfg crns).1 =
        crns.filterMap (fun crn =>
          match getCourseName env.resolvePost cfg crn with
          | .error _ => none
          | .ok name => some ⟨crn, name, false⟩) := by
  intro crns
  induction crns with
  | nil => rfl
  | cons crn rest ih =>
    simp only [resolveCourses, List.filterMap_cons]
    rcases h : getCourseName env.resolvePost cfg crn with e | name <;>
      simp [h, ih]

theorem resolveCourses_unfound (env : Env) (cfg : Config)
    (crns : List String) :
    ∀ c ∈ (resolveCourses env cfg crns).1, c.found = false := by
  intro c hc
  rw [resolveCourses_courses] at hc
  rcases List.mem_filterMap.mp hc with ⟨a, _, ha⟩
  rcases h : getCourseName env.resolvePost cfg a with e | name <;>
    rw [h] at ha
  · cases ha
  · cases ha
    rfl

theorem countUnfound_of_all_unfound :
    ∀ courses : List CourseStatus,
      (∀ c ∈ courses, c.found = false) →
      countUnfound courses = courses.length := by
  intro courses
  induction courses with
  | nil => intro _; rfl
  | cons c rest ih =>
    intro h
    have hc : c.found = false := h c (List.mem_cons_self c rest)
    simp only [countUnfound, List.filter_cons, hc, Bool.not_false, if_true,
      List.length_cons]
    have := ih (fun x hx => h x (List.mem_cons_of_mem c hx))
    simp only [countUnfound] at this
    simp [this]

theorem countUnfound_eq_zero (courses : List CourseStatus) :
    countUnfound courses = 0 ↔ courses.all (·.found) = true := by
  unfold countUnfound
  rw [List.length_eq_zero, List.filter_eq_nil_iff, List.all_eq_true]
  constructor
  · intro h c hc
    have := h c hc
    simpa using this
  · intro h c hc
    simpa using h c hc

theorem runLoop_spec (env : Env) (cfg : Config) :
    ∀ (fuel attempt : Nat) (courses : List CourseStatus) (remaining : Nat),
      remaining = countUnfound courses → remaining ≠ 0 →
      (runLoop env cfg fuel attempt courses remaining).remaining =
        countUnfound (runLoop env cfg fuel attempt courses remaining).courses
        ∧
      (runLoop env cfg fuel attempt courses remaining).remaining ≤ remaining
        ∧
      ((runLoop env cfg fuel attempt courses remaining).status = .success ↔
        (runLoop env cfg fuel attempt courses remaining).remaining = 0) := by
  intro fuel
  induction fuel with
  | zero =>
    intro attempt courses remaining hinv hnz
    refine ⟨hinv, Nat.le_refl _, ?_⟩
    constructor
    · intro h; cases h
    · intro h; exact absurd h hnz
  | succ fuel ih =>
    intro attempt courses remaining hinv hnz
    have hrem := runCycle_remaining env cfg attempt courses remaining
    have hcrs := runCycle_courses env cfg attempt courses remaining
    have hstep := countUnfound_step env cfg attempt courses
    have hinv' : (runCycle env cfg attempt courses remaining).2.1 =
        countUnfound (runCycle env cfg attempt courses remaining).1 := by
      rw [hrem, hcrs, hinv]
      omega
    have hle : (runCycle env cfg attempt courses remaining).2.1 ≤ remaining
      := by rw [hrem]; omega
    by_cases hz : (runCycle env cfg attempt courses remaining).2.1 = 0
    · simp only [runLoop, hz, if_true]
      refine ⟨hz ▸ hinv', by omega, by simp⟩
    · simp only [runLoop, hz, if_false]
      have := ih (attempt + 1) (runCycle env cfg attempt courses remaining).1
        (runCycle env cfg attempt courses remaining).2.1 hinv' hz
      exact ⟨this.1, Nat.le_trans this.2.1 hle, this.2.2⟩

theorem processCourse_events_mem (env : Env) (cfg : Config) (attempt : Nat)
    (c : CourseStatus) :
    ∀ e ∈ (processCourse env cfg attempt c).events,
      e = .checkIssued attempt c.crn ∨
      e = .checkErrorLogged attempt c.crn ∨
      e = .seatFound c.crn c.name ∨
      ∃ res, e = .notified .envSendEmail c.crn c.name cfg.email emailSubject
        (emailMsg c.name c.crn) res := by
  intro e he
  unfold processCourse at he
  by_cases h : c.found = true
  · simp [h] at he
  · have h' : c.found = false := by simpa using h
    rw [h'] at he
    rcases hc : checkSectionOpen (env.checkPost attempt) cfg c.crn with ⟨b, er⟩
    rw [hc] at he
    rcases er with _ | er
    · cases b
      · simp at he
        simp [he]
      · simp at he
        rcases he with he | he | he <;> simp [he]
    · simp at he
      rcases he with he | he <;> simp [he]

theorem resolveCourses_events_mem (env : Env) (cfg : Config) :
    ∀ (crns : List String), ∀ e ∈ (resolveCourses env cfg crns).2,
      (∃ crn, e = .resolveWarning crn) ∨
      (∃ crn name, e = .monitoring crn name) := by
  intro crns
  induction crns with
  | nil => intro e he; cases he
  | cons crn rest ih =>
    intro e he
    unfold resolveCourses at he
    rcases h : getCourseName env.resolvePost cfg crn with er | name <;>
      rw [h] at he <;> simp at he <;> rcases he with he | he
    · exact Or.inl ⟨crn, he⟩
    · exact ih e he
    · exact Or.inr ⟨crn, name, he⟩
    · exact ih e he

theorem runLoop_events_mem (env : Env) (cfg : Config) :
    ∀ (fuel attempt : Nat) (courses : List CourseStatus) (remaining : Nat),
      ∀ e ∈ (runLoop env cfg fuel attempt courses remaining).events,
        ∃ a c, e ∈ (processCourse env cfg a c).events := by
  intro fuel
  induction fuel with
  | zero => intro _ _ _ e he; cases he
  | succ fuel ih =>
    intro attempt courses remaining e he
    rw [runLoop] at he
    by_cases hz : (runCycle env cfg attempt courses remaining).2.1 = 0 <;>
      simp only [hz, if_true, if_false] at he
    · rw [runCycle_events] at he
      rcases List.mem_flatMap.mp he with ⟨c, _, hc⟩
      exact ⟨attempt, c, hc⟩
    · simp only [List.mem_append] at he
      rcases he with he | he
      · rw [runCycle_events] at he
        rcases List.mem_flatMap.mp he with ⟨c, _, hc⟩
        exact ⟨attempt, c, hc⟩
      · exact ih _ _ _ e he

theorem run_events_mem (env : Env) (opts : RunOptions) (fuel : Nat) :
    ∀ e ∈ (Run env opts fuel).2,
      (∃ crn, e = .resolveWarning crn) ∨
      (∃ crn name, e = .monitoring crn name) ∨
      (∃ cfg a c, e ∈ (processCourse env cfg a c).events ∧
        loadConfig env.rawConfig = .ok cfg) := by
  intro e he
  unfold Run at he
  rcases hcfg : loadConfig env.rawConfig with er | cfg <;> rw [hcfg] at he
  · cases he
  · by_cases hemp : (resolveCourses env cfg cfg.crns).1.isEmpty = true <;>
      simp only [hemp, if_true, if_false] at he
    · rcases resolveCourses_events_mem env cfg cfg.crns e he with h | h
      · exact Or.inl h
      · exact Or.inr (Or.inl h)
    · rcases List.mem_append.mp he with h | h
      · rcases resolveCourses_events_mem env cfg cfg.crns e h with h' | h'
        · exact Or.inl h'
        · exact Or.inr (Or.inl h')
      · rcases runLoop_events_mem env cfg _ _ _ _ e h with ⟨a, c, hc⟩
        exact Or.inr (Or.inr ⟨cfg, a, c, hc, rfl⟩)

theorem runLoop_found_persists (env : Env) (cfg : Config) :
    ∀ (fuel attempt : Nat) (courses : List CourseStatus) (remaining i : Nat)
      (c : CourseStatus), courses[i]? = some c → c.found = true →
      (runLoop env cfg fuel attempt courses remaining).courses[i]? = some c
    := by
  intro fuel
  induction fuel with
  | zero => intro _ _ _ i c hc _; exact hc
  | succ fuel ih =>
    intro attempt courses remaining i c hc hf
    have hcyc : (runCycle env cfg attempt courses remaining).1[i]? = some c
      := by
      rw [runCycle_courses, List.getElem?_map, hc]
      simp [processCourse_of_found env cfg attempt c hf]
    rw [runLoop]
    by_cases hz : (runCycle env cfg attempt courses remaining).2.1 = 0 <;>
      simp only [hz, if_true, if_false]
    · exact hcyc
    · exact ih _ _ _ i c hcyc hf

theorem processCourse_state_indep (env₁ env₂ : Env)
    (h : env₁.checkPost = env₂.checkPost) (cfg : Config) (attempt : Nat)
    (c : CourseStatus) :
    (processCourse env₁ cfg attempt c).course =
      (processCourse env₂ cfg attempt c).course ∧
    (processCourse env₁ cfg attempt c).flipped =
      (processCourse env₂ cfg attempt c).flipped := by
  unfold processCourse
  rw [h]
  by_cases hf : c.found = true
  · simp [hf]
  · have hf' : c.found = false := by simpa using hf
    rw [hf']
    rcases hc : checkSectionOpen (env₂.checkPost attempt) cfg c.crn with ⟨b, e⟩
    rcases e with _ | e
    · cases b <;> simp [hc]
    · simp [hc]

theorem runLoop_state_indep (env₁ env₂ : Env)
    (h : env₁.checkPost = env₂.checkPost) (cfg : Config) :
    ∀ (fuel attempt : Nat) (courses : List CourseStatus) (remaining : Nat),
      (runLoop env₁ cfg fuel attempt courses remaining).status =
        (runLoop env₂ cfg fuel attempt courses remaining).status ∧
      (runLoop env₁ cfg fuel attempt courses remaining).courses =
        (runLoop env₂ cfg fuel attempt courses remaining).courses ∧
      (runLoop env₁ cfg fuel attempt courses remaining).remaining =
        (runLoop env₂ cfg fuel attempt courses remaining).remaining := by
  intro fuel
  induction fuel with
  | zero => intro _ _ _; exact ⟨rfl, rfl, rfl⟩
  | succ fuel ih =>
    intro attempt courses remaining
    have hcrs : (runCycle env₁ cfg attempt courses remaining).1 =
        (runCycle env₂ cfg attempt courses remaining).1 := by
      rw [runCycle_courses, runCycle_courses]
      exact List.map_congr_left fun c _ =>
        (processCourse_state_indep env₁ env₂ h cfg attempt c).1
    have hrem : (runCycle env₁ cfg attempt courses remaining).2.1 =
        (runCycle env₂ cfg attempt courses remaining).2.1 := by
      rw [runCycle_remaining, runCycle_remaining]
      congr 1
      exact congrArg List.length (List.filter_congr fun c _ =>
        (processCourse_state_indep env₁ env₂ h cfg attempt c).2)
    rw [runLoop, runLoop, hrem, hcrs]
    by_cases hz : (runCycle env₂ cfg attempt courses remaining).2.1 = 0 <;>
      simp only [hz, if_true, if_false]
    · simp
    · exact ih _ _ _

/-! ### Claim C1 (code bug): the injected sender is never used -/

/-- C1: in every run — whatever `RunOptions.EmailSender` is supplied — no
notification is ever delivered through the injected sender: the loop body
calls the package-level `sendEmail`, which reads `RESEND_API_KEY` from the
process environment inside the monitoring loop.  Concretely, a run with a
supplied sender and one availability detection delivers its notification
through the environment-credential path. -/
theorem c1_injected_sender_never_used :
    (∀ (env : Env) (opts : RunOptions) (fuel : Nat),
      (Run env opts fuel).2.filter (isNotifiedVia .injectedSender) = []) ∧
    (Run c1Env ⟨true⟩ 1).2.any (isNotifiedVia .envSendEmail) = true ∧
    (Run c1Env ⟨true⟩ 1).2.any (isNotifiedVia .injectedSender) = false := by
  refine ⟨?_, by decide, by decide⟩
  intro env opts fuel
  rw [List.filter_eq_nil_iff]
  intro e he
  rcases run_events_mem env opts fuel e he with ⟨crn, rfl⟩ |
    ⟨crn, name, rfl⟩ | ⟨cfg, a, ct, hc, _⟩
  · simp [isNotifiedVia]
  · simp [isNotifiedVia]
  · rcases processCourse_events_mem env cfg a ct e hc with h | h | h | ⟨res, h⟩
      <;> subst h <;> simp [isNotifiedVia]

/-! ### Claim C5 (corrected): notifier failures are discarded, not logged,
and never affect the monitor state -/

/-- C5, counterexample to the claim as stated: with the notification
credential absent, the notification call fails (`unconfigured`), yet the
trace contains no log of that failure — the `sendEmail` return value is
discarded, so the failure is not "logged" as the claim asserts.  The
course is still found, `remaining` still reaches 0, and the run still
succeeds. -/
theorem c5_counterexample :
    (Run c5Env ⟨false⟩ 1).2.any isFailedNotify = true ∧
    (Run c5Env ⟨false⟩ 1).2.any isNotifyFailLog = false ∧
    ((Run c5Env ⟨false⟩ 1).1.toOption.map
        (fun r => (r.status, r.remaining, r.courses))) =
      some (.success, 0, [⟨"222", "N", true⟩]) := by decide

/-- C5, amended: a Notifier failure is silently discarded (no log event
exists for it anywhere in any run), and it does not revert the course's
`found` flag, does not undo the decrement of `remaining`, and does not
stop the monitoring loop: the notification call's result never influences
the loop's status, course states, or remaining count. -/
theorem c5_notifier_failure_ignored :
    (∀ (env : Env) (cfg : Config) (attempt : Nat) (ct : CourseStatus),
      ct.found = false →
      checkSectionOpen (env.checkPost attempt) cfg ct.crn = (true, none) →
      (processCourse env cfg attempt ct).course.found = true ∧
      (processCourse env cfg attempt ct).flipped = true ∧
      (processCourse env cfg attempt ct).events =
        [.checkIssued attempt ct.crn, .seatFound ct.crn ct.name,
         .notified .envSendEmail ct.crn ct.name cfg.email emailSubject
           (emailMsg ct.name ct.crn)
           (sendEmail env cfg.email emailSubject (emailMsg ct.name ct.crn))])
    ∧
    (∀ (env : Env) (opts : RunOptions) (fuel : Nat),
      (Run env opts fuel).2.filter isNotifyFailLog = []) ∧
    (∀ (env₁ env₂ : Env) (cfg : Config)
      (fuel attempt : Nat) (courses : List CourseStatus) (remaining : Nat),
      env₁.checkPost = env₂.checkPost →
      (runLoop env₁ cfg fuel attempt courses remaining).status =
        (runLoop env₂ cfg fuel attempt courses remaining).status ∧
      (runLoop env₁ cfg fuel attempt courses remaining).courses =
        (runLoop env₂ cfg fuel attempt courses remaining).courses ∧
      (runLoop env₁ cfg fuel attempt courses remaining).remaining =
        (runLoop env₂ cfg fuel attempt courses remaining).remaining) := by
  refine ⟨?_, ?_, ?_⟩
  · intro env cfg attempt ct hf hopen
    unfold processCourse
    rw [hf, hopen]
    simp
  · intro env opts fuel
    rw [List.filter_eq_nil_iff]
    intro e he
    rcases run_events_mem env opts fuel e he with ⟨crn, rfl⟩ |
      ⟨crn, name, rfl⟩ | ⟨cfg, a, ct, hc, _⟩
    · simp [isNotifyFailLog]
    · simp [isNotifyFailLog]
    · rcases processCourse_events_mem env cfg a ct e hc with h | h | h |
        ⟨res, h⟩ <;> subst h <;> simp [isNotifyFailLog]
  · intro env₁ env₂ cfg fuel attempt courses remaining h
    exact runLoop_state_indep env₁ env₂ h cfg fuel attempt courses remaining

/-- C5 witness: the amended behavior evaluated on the concrete
unconfigured-notifier run: the flip happens with the failing notification
recorded, no failure log exists, and the run state matches that of the
same environment with a working credential. -/
theorem c5_witness :
    ((processCourse c5Env ⟨["222"], "user@example.edu", 30, "202601", "0",
        "http://x"⟩ 1 ⟨"222", "N", false⟩).course.found = true ∧
      (processCourse c5Env ⟨["222"], "user@example.edu", 30, "202601", "0",
        "http://x"⟩ 1 ⟨"222", "N", false⟩).flipped = true) ∧
    (Run c5Env ⟨false⟩ 1).2.filter isNotifyFailLog = [] ∧
    (runLoop c5Env ⟨["222"], "user@example.edu", 30, "202601", "0",
        "http://x"⟩ 1 1 [⟨"222", "N", false⟩] 1).status =
      (runLoop { c5Env with resendApiKey := "key" }
        ⟨["222"], "user@example.edu", 30, "202601", "0", "http://x"⟩
        1 1 [⟨"222", "N", false⟩] 1).status := by
  refine ⟨?_, c5_notifier_failure_ignored.2.1 c5Env (RunOptions.mk false) 1, ?_⟩
  · have h := c5_notifier_failure_ignored.1 c5Env
      ⟨["222"], "user@example.edu", 30, "202601", "0", "http://x"⟩ 1
      ⟨"222", "N", false⟩ rfl (by decide)
    exact ⟨h.1, h.2.1⟩
  · exact (c5_notifier_failure_ignored.2.2 c5Env
      { c5Env with resendApiKey := "key" }
      ⟨["222"], "user@example.edu", 30, "202601", "0", "http://x"⟩
      1 1 [⟨"222", "N", false⟩] 1 rfl).1

/-! ### Claim C7 (corrected): idempotence holds per tracked entry, not per
identifier -/

/-- C7, counterexample to the claim as stated: with the same CRN `111`
configured twice, the first entry's flag flips and in the same cycle an
availability check for identifier `111` is still issued (for the second
tracked entry) — a check for that course's identifier after its flag is
true. -/
theorem c7_counterexample :
    (Run c7Env ⟨false⟩ 1).2.any (isFlipFor "111") = true ∧
    checkAfterFlip "111" (Run c7Env ⟨false⟩ 1).2 = true := by decide

/-- C7, amended: per tracked entry — once an entry's `found` flag is true
it is skipped (left unchanged, with no check issued and no decrement) by
every later pass and stays true for the rest of the run, and a flip can
only take `found` from false to true; but a check for the same identifier
may still be issued through a different tracked entry holding a duplicate
of that identifier. -/
theorem c7_per_entry_idempotence :
    (∀ (env : Env) (cfg : Config) (attempt : Nat) (ct : CourseStatus),
      ct.found = true → processCourse env cfg attempt ct = ⟨ct, false, []⟩)
    ∧
    (∀ (env : Env) (cfg : Config) (fuel attempt : Nat)
      (courses : List CourseStatus) (remaining i : Nat) (ct : CourseStatus),
      courses[i]? = some ct → ct.found = true →
      (runLoop env cfg fuel attempt courses remaining).courses[i]? = some ct)
    ∧
    (∀ (env : Env) (cfg : Config) (attempt : Nat) (ct : CourseStatus),
      (processCourse env cfg attempt ct).flipped = true →
      ct.found = false ∧ (processCourse env cfg attempt ct).course.found =
        true) := by
  refine ⟨processCourse_of_found, runLoop_found_persists, ?_⟩
  intro env cfg attempt ct h
  exact (processCourse_master env cfg attempt ct).2.2.1 h

/-- C7 witness: a found entry is skipped unchanged through a whole loop,
and a concrete flip goes false→true. -/
theorem c7_witness :
    processCourse c7Env ⟨["111", "111"], "user@example.edu", 30, "202601",
      "0", "http://x"⟩ 1 ⟨"111", "N", true⟩ = ⟨⟨"111", "N", true⟩, false, []⟩
    ∧
    (runLoop c7Env ⟨["111", "111"], "user@example.edu", 30, "202601", "0",
      "http://x"⟩ 2 1 [⟨"111", "N", true⟩, ⟨"x", "Y", false⟩] 1).courses[0]?
      = some ⟨"111", "N", true⟩ ∧
    (⟨"111", "N", false⟩ : CourseStatus).found = false ∧
    (processCourse c7Env ⟨["111", "111"], "user@example.edu", 30, "202601",
      "0", "http://x"⟩ 1 ⟨"111", "N", false⟩).course.found = true := by
  refine ⟨c7_per_entry_idempotence.1 c7Env _ 1 ⟨"111", "N", true⟩ rfl,
    c7_per_entry_idempotence.2.1 c7Env _ 2 1
      [⟨"111", "N", true⟩, ⟨"x", "Y", false⟩] 1 0 ⟨"111", "N", true⟩ rfl rfl,
    rfl, ?_⟩
  exact (c7_per_entry_idempotence.2.2 c7Env _ 1 ⟨"111", "N", false⟩
    (by decide)).2

/-! ### Claim C8 (confirmed): the tracked set after resolution -/

/-- C8: after the resolving phase the tracked list is exactly the
configured identifiers the resolver successfully named, in configured
order, each with `found = false`; and the run fails fatally with
`noValidTargets` (never entering the polling loop) exactly when that list
is empty. -/
theorem c8_tracked_set_exact (env : Env) (opts : RunOptions) (fuel : Nat)
    (cfg : Config) (hcfg : loadConfig env.rawConfig = .ok cfg) :
    (resolveCourses env cfg cfg.crns).1 =
      cfg.crns.filterMap (fun crn =>
        match getCourseName env.resolvePost cfg crn with
        | .error _ => none
        | .ok name => some ⟨crn, name, false⟩) ∧
    (∀ c ∈ (resolveCourses env cfg cfg.crns).1, c.found = false) ∧
    ((resolveCourses env cfg cfg.crns).1 = [] ↔
      (Run env opts fuel).1 = .error .noValidTargets) := by
  refine ⟨resolveCourses_courses env cfg cfg.crns,
    resolveCourses_unfound env cfg cfg.crns, ?_⟩
  unfold Run
  rw [hcfg]
  dsimp only
  by_cases hemp : (resolveCourses env cfg cfg.crns).1.isEmpty = true
  · simp only [hemp, if_true]
    simp [List.isEmpty_iff.mp hemp]
  · rw [if_neg hemp]
    constructor
    · intro h
      exact absurd (by simp [h] :
        (resolveCourses env cfg cfg.crns).1.isEmpty = true) hemp
    · intro h
      exact Except.noConfusion h

/-- C8 witness: with CRNs `1` (resolvable) and `2` (not present in the
table), the tracked set is exactly the one resolved course and the run
does not fail with `noValidTargets`. -/
theorem c8_witness :
    (resolveCourses c8Env ⟨["1", "2"], "user@example.edu", 30, "202601",
        "0", "http://x"⟩ ["1", "2"]).1 =
      ["1", "2"].filterMap (fun crn =>
        match getCourseName c8Env.resolvePost ⟨["1", "2"],
            "user@example.edu", 30, "202601", "0", "http://x"⟩ crn with
        | .error _ => none
        | .ok name => some ⟨crn, name, false⟩) ∧
    ((resolveCourses c8Env ⟨["1", "2"], "user@example.edu", 30, "202601",
        "0", "http://x"⟩ ["1", "2"]).1 = [] ↔
      (Run c8Env ⟨false⟩ 1).1 = .error .noValidTargets) := by
  have h := c8_tracked_set_exact c8Env ⟨false⟩ 1
    ⟨["1", "2"], "user@example.edu", 30, "202601", "0", "http://x"⟩
    (by decide)
  exact ⟨h.1, h.2.2⟩

/-! ### Claim C6 (confirmed): the remaining-count invariant -/

/-- C6: after every per-course pass `remaining` equals the number of
tracked courses with `found = false` and never increases; and a run that
gets past resolution ends successfully exactly when `remaining` reaches 0,
which happens exactly when every tracked course is found. -/
theorem c6_remaining_invariant :
    (∀ (env : Env) (cfg : Config) (attempt : Nat)
      (courses : List CourseStatus) (remaining : Nat),
      remaining = countUnfound courses →
      (runCycle env cfg attempt courses remaining).2.1 =
        countUnfound (runCycle env cfg attempt courses remaining).1 ∧
      (runCycle env cfg attempt courses remaining).2.1 ≤ remaining) ∧
    (∀ (env : Env) (opts : RunOptions) (fuel : Nat) (cfg : Config)
      (r : LoopResult),
      loadConfig env.rawConfig = .ok cfg →
      (Run env opts fuel).1 = .ok r →
      r.remaining = countUnfound r.courses ∧
      r.remaining ≤ (resolveCourses env cfg cfg.crns).1.length ∧
      (r.status = .success ↔ r.remaining = 0) ∧
      (r.status = .success ↔ r.courses.all (·.found) = true)) := by
  constructor
  · intro env cfg attempt courses remaining hinv
    have hrem := runCycle_remaining env cfg attempt courses remaining
    have hcrs := runCycle_courses env cfg attempt courses remaining
    have hstep := countUnfound_step env cfg attempt courses
    constructor
    · rw [hrem, hcrs, hinv]
      omega
    · rw [hrem]
      omega
  · intro env opts fuel cfg r hcfg hr
    unfold Run at hr
    rw [hcfg] at hr
    dsimp only at hr
    by_cases hemp : (resolveCourses env cfg cfg.crns).1.isEmpty = true
    · rw [if_pos hemp] at hr
      exact absurd hr (fun h => Except.noConfusion h)
    · rw [if_neg hemp] at hr
      have hrr : runLoop env cfg fuel 1 (resolveCourses env cfg cfg.crns).1
          (resolveCourses env cfg cfg.crns).1.length = r :=
        Except.ok.inj hr
      have hunf : countUnfound (resolveCourses env cfg cfg.crns).1 =
          (resolveCourses env cfg cfg.crns).1.length :=
        countUnfound_of_all_unfound _ (resolveCourses_unfound env cfg cfg.crns)
      have hnz : (resolveCourses env cfg cfg.crns).1.length ≠ 0 := by
        intro h
        exact hemp (by simp [List.length_eq_zero.mp h])
      have hspec := runLoop_spec env cfg fuel 1
        (resolveCourses env cfg cfg.crns).1
        (resolveCourses env cfg cfg.crns).1.length hunf.symm hnz
      rw [hrr] at hspec
      refine ⟨hspec.1, hspec.2.1, hspec.2.2, ?_⟩
      rw [hspec.2.2, hspec.1]
      exact countUnfound_eq_zero r.courses

/-- C6 witness: the invariant clauses applied to a concrete
one-course run that finds its course in the first cycle. -/
theorem c6_witness :
    ((runCycle c6Env ⟨["333"], "user@example.edu", 30, "202601", "0",
        "http://x"⟩ 1 [⟨"333", "M", false⟩] 1).2.1 =
      countUnfound (runCycle c6Env ⟨["333"], "user@example.edu", 30,
        "202601", "0", "http://x"⟩ 1 [⟨"333", "M", false⟩] 1).1) ∧
    ((⟨.success, [⟨"333", "M", true⟩], 0,
        [.checkIssued 1 "333", .seatFound "333" "M",
         .notified .envSendEmail "333" "M" "user@example.edu"
           "VT Course Section Open!" "OPEN SEAT: M (CRN: 333)" none]⟩ :
      LoopResult).status = .success ↔
      (⟨.success, [⟨"333", "M", true⟩], 0,
        [.checkIssued 1 "333", .seatFound "333" "M",
         .notified .envSendEmail "333" "M" "user@example.edu"
           "VT Course Section Open!" "OPEN SEAT: M (CRN: 333)" none]⟩ :
      LoopResult).courses.all (·.found) = true) := by
  constructor
  · exact (c6_remaining_invariant.1 c6Env
      ⟨["333"], "user@example.edu", 30, "202601", "0", "http://x"⟩ 1
      [⟨"333", "M", false⟩] 1 (by decide)).1
  · exact (c6_remaining_invariant.2 c6Env (RunOptions.mk false) 1
      ⟨["333"], "user@example.edu", 30, "202601", "0", "http://x"⟩
      ⟨.success, [⟨"333", "M", true⟩], 0,
        [.checkIssued 1 "333", .seatFound "333" "M",
         .notified .envSendEmail "333" "M" "user@example.edu"
           "VT Course Section Open!" "OPEN SEAT: M (CRN: 333)" none]⟩
      (by decide) (by decide)).2.2.2

/-! ### Claim C10 (confirmed): duplicate CRNs are tracked, flipped and
notified independently -/

theorem resolveCourses_filter_crn (env : Env) (cfg : Config)
    (c name : String)
    (hres : getCourseName env.resolvePost cfg c = .ok name) :
    ∀ crns : List String,
      (resolveCourses env cfg crns).1.filter (fun e => e.crn = c) =
        List.replicate (crns.count c) ⟨c, name, false⟩ := by
  intro crns
  induction crns with
  | nil => rfl
  | cons crn rest ih =>
    by_cases hcrn : crn = c
    · subst hcrn
      simp only [resolveCourses, hres]
      simp [List.filter_cons, List.count_cons, List.replicate_succ, ih]
    · simp only [resolveCourses]
      rcases h : getCourseName env.resolvePost cfg crn with e | nm
      · simpa [List.count_cons, hcrn] using ih
      · simpa [List.filter_cons, List.count_cons, hcrn] using ih

theorem processCourse_flips (env : Env) (cfg : Config) (attempt : Nat)
    (ct : CourseStatus) (hf : ct.found = false)
    (hopen : checkSectionOpen (env.checkPost attempt) cfg ct.crn =
      (true, none)) :
    (processCourse env cfg attempt ct).flipped = true ∧
    (processCourse env cfg attempt ct).course = { ct with found := true } := by
  unfold processCourse
  rw [hf, hopen]
  simp

theorem processCourse_notify_count (env : Env) (cfg : Config)
    (attempt : Nat) (ct : CourseStatus) (c : String) :
    (processCourse env cfg attempt ct).events.countP (isNotifyFor c) =
      if (processCourse env cfg attempt ct).flipped = true ∧ ct.crn = c
      then 1 else 0 := by
  by_cases hfound : ct.found = true
  · simp [processCourse_of_found env cfg attempt ct hfound]
  · have hf : ct.found = false := by simpa using hfound
    unfold processCourse
    rw [hf]
    rcases hc : checkSectionOpen (env.checkPost attempt) cfg ct.crn with
      ⟨b, er⟩
    rcases er with _ | er
    · cases b
      · simp [isNotifyFor, List.countP_cons, List.countP_nil]
      · by_cases hcc : ct.crn = c <;>
          simp [isNotifyFor, hcc, List.countP_cons, List.countP_nil]
    · simp [isNotifyFor, List.countP_cons, List.countP_nil]

theorem flatMap_notify_count (env : Env) (cfg : Config) (c : String)
    (hopen : checkSectionOpen (env.checkPost 1) cfg c = (true, none)) :
    ∀ L : List CourseStatus, (∀ e ∈ L, e.crn = c → e.found = false) →
      (L.flatMap (fun e => (processCourse env cfg 1 e).events)).countP
          (isNotifyFor c) =
        (L.filter (fun e => e.crn = c)).length ∧
      (L.filter (fun e => (processCourse env cfg 1 e).flipped)).length ≥
        (L.filter (fun e => e.crn = c)).length := by
  intro L
  induction L with
  | nil => exact fun _ => ⟨rfl, Nat.le_refl 0⟩
  | cons e rest ih =>
    intro h
    have hrest := ih (fun x hx => h x (List.mem_cons_of_mem _ hx))
    rw [List.flatMap_cons, List.countP_append, processCourse_notify_count]
    have h1 := hrest.1
    have h2 := hrest.2
    by_cases hcc : e.crn = c
    · have hfound : e.found = false := h e (List.mem_cons_self _ _) hcc
      have hflip : (processCourse env cfg 1 e).flipped = true :=
        (processCourse_flips env cfg 1 e hfound (by rw [hcc]; exact hopen)).1
      simp [List.filter_cons, hcc, hflip, h1] <;> omega
    · by_cases hflip : (processCourse env cfg 1 e).flipped = true
      · simp [List.filter_cons, hcc, hflip, h1] <;> omega
      · have hflip' : (processCourse env cfg 1 e).flipped = false := by
          simpa using hflip
        simp [List.filter_cons, hcc, hflip', h1] <;> omega

/-- C10: if the configured list contains identifier `c` with multiplicity
`k` and `c` resolves, the tracked list holds `k` separate entries for `c`
(each `found = false`); when `c` is reported open throughout a cycle,
every one of those entries flips to `found = true`, exactly `k`
notifications for `c` are sent, and `remaining` decreases by at least `k`
during that cycle. -/
theorem c10_duplicate_crns (env : Env) (cfg : Config) (c name : String)
    (hres : getCourseName env.resolvePost cfg c = .ok name)
    (hopen : checkSectionOpen (env.checkPost 1) cfg c = (true, none)) :
    (((resolveCourses env cfg cfg.crns).1.filter
        (fun e => e.crn = c)).length = cfg.crns.count c) ∧
    (∀ e ∈ (resolveCourses env cfg cfg.crns).1, e.crn = c →
      e = ⟨c, name, false⟩) ∧
    (∀ e ∈ (runCycle env cfg 1 (resolveCourses env cfg cfg.crns).1
        (resolveCourses env cfg cfg.crns).1.length).1,
      e.crn = c → e.found = true) ∧
    ((runCycle env cfg 1 (resolveCourses env cfg cfg.crns).1
        (resolveCourses env cfg cfg.crns).1.length).2.2.countP
      (isNotifyFor c) = cfg.crns.count c) ∧
    ((resolveCourses env cfg cfg.crns).1.length -
      (runCycle env cfg 1 (resolveCourses env cfg cfg.crns).1
        (resolveCourses env cfg cfg.crns).1.length).2.1 ≥
      cfg.crns.count c) := by
  have hfil := resolveCourses_filter_crn env cfg c name hres cfg.crns
  have hmem : ∀ e ∈ (resolveCourses env cfg cfg.crns).1, e.crn = c →
      e = ⟨c, name, false⟩ := by
    intro e he hc
    have : e ∈ (resolveCourses env cfg cfg.crns).1.filter
        (fun e => e.crn = c) :=
      List.mem_filter.mpr ⟨he, by simp [hc]⟩
    rw [hfil] at this
    exact List.eq_of_mem_replicate this
  have hassum : ∀ e ∈ (resolveCourses env cfg cfg.crns).1, e.crn = c →
      e.found = false := by
    intro e he hc
    rw [hmem e he hc]
  have hcount := flatMap_notify_count env cfg c hopen
    (resolveCourses env cfg cfg.crns).1 hassum
  refine ⟨by rw [hfil, List.length_replicate], hmem, ?_, ?_, ?_⟩
  · intro e he hc
    rw [runCycle_courses] at he
    rcases List.mem_map.mp he with ⟨e₀, he₀, rfl⟩
    have hcrn : e₀.crn = c := by
      rw [← (processCourse_master env cfg 1 e₀).1]
      exact hc
    have hfound : e₀.found = false := hassum e₀ he₀ hcrn
    have := (processCourse_flips env cfg 1 e₀ hfound
      (by rw [hcrn]; exact hopen)).2
    rw [this]
  · rw [runCycle_events, hcount.1, hfil, List.length_replicate]
  · rw [runCycle_remaining]
    have hle : ((resolveCourses env cfg cfg.crns).1.filter
        (fun e => (processCourse env cfg 1 e).flipped)).length ≤
        (resolveCourses env cfg cfg.crns).1.length :=
      List.length_filter_le _ _
    have hge := hcount.2
    rw [hfil, List.length_replicate] at hge
    omega

/-- C10 witness: CRN `9` configured twice; both entries flip in cycle 1,
two notifications for `9` are sent, and `remaining` drops by 2. -/
theorem c10_witness :
    (((resolveCourses c10Env ⟨["9", "9"], "user@example.edu", 30, "202601",
        "0", "http://x"⟩ ["9", "9"]).1.filter
        (fun e => e.crn = "9")).length = ["9", "9"].count "9") ∧
    ((runCycle c10Env ⟨["9", "9"], "user@example.edu", 30, "202601", "0",
        "http://x"⟩ 1 (resolveCourses c10Env ⟨["9", "9"],
          "user@example.edu", 30, "202601", "0", "http://x"⟩ ["9", "9"]).1
        (resolveCourses c10Env ⟨["9", "9"], "user@example.edu", 30,
          "202601", "0", "http://x"⟩ ["9", "9"]).1.length).2.2.countP
      (isNotifyFor "9") = ["9", "9"].count "9") := by
  have h := c10_duplicate_crns c10Env
    ⟨["9", "9"], "user@example.edu", 30, "202601", "0", "http://x"⟩
    "9" "Z" (by decide) (by decide)
  exact ⟨h.1, h.2.2.2.1⟩

end VtSniper
